import Mathlib

/-!
# Verification of the vc-suite-eddsa key codec and proof pipeline

This development shallowly embeds the TypeScript sources of the
vc-suite-eddsa repository (Ed25519 Data Integrity cryptographic suite)
and proves or refutes the frozen specification claims about it.

Conventions of the embedding:
* JS byte arrays are `List Nat` with every element below 256.
* JS strings that are manipulated character by character (multibase and
  base58 strings) are `List Char`; other strings stay `String`.
* Fallible code returns `Except Err`; a thrown JS exception is `.error`.
* Platform primitives (Web Crypto sign/verify, canonicalization,
  document loader, Date.parse) are opaque parameters gathered in
  environment structures, as the specification directs ("the core treats
  these as opaque deterministic functions").
-/

set_option autoImplicit false

namespace VCSuiteEddsa

/-- Error taxonomy of the suite: mirrors the SuiteError / ProcessingError
codes raised by the sources (src/error/error.ts, part_004) together with
plain JS Error throws, which the spec maps onto the same taxonomy. -/
inductive Err where
  | formatError (site msg : String)
  | decodingError (site msg : String)
  | logicError (site msg : String)
  | keyNotFound (site msg : String)
  | expiredKeypair (site msg : String)
  | proofGenerationError (site msg : String)
  | proofTransformationError (site msg : String)
  | proofVerificationError (site msg : String)
  | invalidVerificationMethod (site msg : String)
  | typeError (site msg : String)
  deriving DecidableEq, Repr

/-- Decidable equality of fallible results, used to evaluate the
embedded operations on concrete inputs. -/
instance exceptDecEq {ε α : Type} [DecidableEq ε] [DecidableEq α] :
    DecidableEq (Except ε α) := fun x y =>
  match x, y with
  | .error e, .error e' =>
      if h : e = e' then isTrue (h ▸ rfl)
      else isFalse (fun hc => h (Except.error.inj hc))
  | .error _, .ok _ => isFalse fun hc => Except.noConfusion hc
  | .ok _, .error _ => isFalse fun hc => Except.noConfusion hc
  | .ok a, .ok a' =>
      if h : a = a' then isTrue (h ▸ rfl)
      else isFalse (fun hc => h (Except.ok.inj hc))

/-- Byte strings: JS Uint8Array contents. -/
abbrev Bytes := List Nat

/-- Key flag distinguishing the private and public half, as the string
union type in the sources. -/
inductive KeyFlag where
  | priv
  | pub
  deriving DecidableEq, Repr

/-- DER prefix of an Ed25519 SPKI public key
(src/src/constant/prefix.ts PUBLIC_KEY_DER, 12 bytes). -/
def derPubPfx : Bytes :=
  [0x30, 0x2a, 0x30, 0x05, 0x06, 0x03, 0x2b, 0x65, 0x70, 0x03, 0x21, 0x00]

/-- DER prefix of an Ed25519 PKCS8 private key
(src/src/constant/prefix.ts PRIVATE_KEY_DER, 16 bytes). -/
def derPrivPfx : Bytes :=
  [0x30, 0x2e, 0x02, 0x01, 0x00, 0x30, 0x05, 0x06, 0x03, 0x2b, 0x65, 0x70,
   0x04, 0x22, 0x04, 0x20]

/-- Multicodec prefix of an Ed25519 public key (PUBLIC_KEY_MULTIBASE). -/
def multicodecPubPfx : Bytes := [0xed, 0x01]

/-- Multicodec prefix of an Ed25519 private key (PRIVATE_KEY_MULTIBASE). -/
def multicodecPrivPfx : Bytes := [0x80, 0x26]

/-- DER prefix selected by a key flag. -/
def derPfx : KeyFlag → Bytes
  | .priv => derPrivPfx
  | .pub => derPubPfx

/-- Multicodec prefix selected by a key flag. -/
def multicodecPfx : KeyFlag → Bytes
  | .priv => multicodecPrivPfx
  | .pub => multicodecPubPfx

/-! ## base58-btc (the @scure/base dependency used by the sources)

The sources delegate base58 to the @scure/base library; we embed its
radix-conversion algorithm: interpret the byte string as a big-endian
number, emit base-58 digits through the Bitcoin alphabet, and encode
each leading zero byte as a leading first-alphabet character. -/

/-- The base58-btc alphabet. -/
def b58Alphabet : List Char :=
  "123456789ABCDEFGHJKLMNPQRSTUVWXYZabcdefghijkmnopqrstuvwxyz".toList

/-- Digit value to alphabet character. -/
def digitChar (d : Nat) : Char := b58Alphabet.getD d '?'

/-- Alphabet character back to digit value; `none` on a character outside
the alphabet (the library throws there). -/
def charDigit (c : Char) : Option Nat := b58Alphabet.findIdx? (· == c)

/-- Number of leading occurrences of `x`. -/
def leadCount {α : Type} [DecidableEq α] (x : α) : List α → Nat
  | [] => 0
  | y :: t => if y = x then leadCount x t + 1 else 0

/-- Little-endian base-b digit expansion, fuel-driven so the kernel can
evaluate it on concrete inputs; with fuel at least n it agrees with
Mathlib's digit expansion (bridge lemma below). -/
def natDigitsF (b : Nat) : Nat → Nat → List Nat
  | _, 0 => []
  | 0, _ + 1 => []
  | fuel + 1, n + 1 => (n + 1) % b :: natDigitsF b fuel ((n + 1) / b)

/-- Little-endian base-b digit expansion of n. -/
def natDigits (b n : Nat) : List Nat := natDigitsF b n n

/-- base58 encoding of a byte string. -/
def b58encode (data : Bytes) : List Char :=
  List.replicate (leadCount 0 data) '1' ++
    ((natDigits 58 (Nat.ofDigits 256 data.reverse)).reverse.map digitChar)

/-- Character-wise digit decoding; fails on the first invalid character. -/
def charDigits : List Char → Option (List Nat)
  | [] => some []
  | c :: t => do
      let d ← charDigit c
      let ds ← charDigits t
      pure (d :: ds)

/-- base58 decoding of a character string back to a byte string. -/
def b58decode (s : List Char) : Option Bytes := do
  let ds ← charDigits s
  pure (List.replicate (leadCount 0 ds) 0 ++
    (natDigits 256 (Nat.ofDigits 58 ds.reverse)).reverse)

/-! ## Multibase codec (src/unnamed/part_000, src/src/util.ts) -/

/-- Element-wise comparison of `xs` against the leading elements of `ys`:
true when every position of `xs` matches; a missing position of `ys`
compares unequal (JS undefined never equals a number).  This is the loop
body shared by the forEach check in decodeMultibase and the every check
in getKeyMaterial. -/
def leadEq : Bytes → Bytes → Bool
  | [], _ => true
  | _ :: _, [] => false
  | v :: vs, w :: ws => v = w && leadEq vs ws

/-- encodeMultibase (src/unnamed/part_000): concatenate multicodec prefix
and key material, base58 encode, prepend the multibase marker z. -/
def encodeMultibase (key : Bytes) (pfx : Bytes) : List Char :=
  'z' :: b58encode (pfx ++ key)

/-- encodeMultibaseKey (src/src/util.ts): identical body to
encodeMultibase with the arguments in the other order. -/
def encodeMultibaseKey (pfx : Bytes) (key : Bytes) : List Char :=
  'z' :: b58encode (pfx ++ key)

/-- decodeMultibase (src/unnamed/part_000): check the multibase marker,
base58-decode, then — when an expected prefix is given — throw on the
first index whose byte differs from it.  The thrown error inside the JS
forEach callback does propagate, so the comparison covers every index. -/
def decodeMultibase (multibase : List Char) (pfx : Option Bytes) :
    Except Err Bytes :=
  if multibase.head? ≠ some 'z' then
    .error (.formatError "decodeMultibase" "Invalid multibase prefix!")
  else
    match b58decode (multibase.drop 1) with
    | none => .error (.decodingError "base58.decode" "invalid character")
    | some key =>
        match pfx with
        | none => .ok key
        | some p =>
            if leadEq p key then .ok key
            else .error (.formatError "decodeMultibase" "Invalid key prefix!")

/-- getKeyMaterial (src/unnamed/part_000): strip the DER prefix for the
given flag; the slice of the leading bytes must equal the expected DER
constant element-wise (Array.prototype.every). -/
def getKeyMaterial (key : Bytes) (flag : KeyFlag) : Except Err Bytes :=
  match flag with
  | .priv =>
      if leadEq (key.take 16) derPrivPfx then .ok (key.drop 16)
      else .error (.formatError "getKeyMaterial"
        "Expected the buffer to be a ED25519 private key!")
  | .pub =>
      if leadEq (key.take 12) derPubPfx then .ok (key.drop 12)
      else .error (.formatError "getKeyMaterial"
        "Expected the buffer to be a ED25519 public key!")

/-- isValidKeyPrefix (src/src/util.ts).  The source iterates with
Array.prototype.forEach whose callback executes "return false" on a
mismatch; that return exits only the callback and forEach discards the
callback result, so the loop has no observable effect and the function
falls through to "return true" whenever the key starts with the marker
and decodes.  The discarded comparison is kept here as a dead binding to
mirror the source line for line. -/
def isValidKeyPrefix (pfx : Bytes) (key : Option (List Char)) :
    Except Err Bool :=
  match key with
  | none => .ok true
  | some k =>
      if k.head? ≠ some 'z' then .ok false
      else
        match b58decode (k.drop 1) with
        | none => .error (.decodingError "base58.decode" "invalid character")
        | some bytes =>
            let _discarded := leadEq pfx bytes
            .ok true

/-- Modelled from the spec: der_from_material is described in section 4.1
("prepends the constant prefix") but only its decode direction
getKeyMaterial appears under src/; the encoder is reconstructed from the
spec words. -/
def derFromMaterial (m : Bytes) (flag : KeyFlag) : Bytes := derPfx flag ++ m

/-! ## SHA-256 (the platform digest primitive used by
src/src/utils/crypto.ts sha256)

The sources call crypto.subtle.digest("SHA-256", bytes); the algorithm
itself is embedded here (FIPS 180-4) so that the hashing-stage claims
are unconditional.  Canonicalized documents are handled as their byte
sequences. -/

/-- Truncate to a 32-bit word. -/
def w32 (n : Nat) : Nat := n % 4294967296

/-- 32-bit right rotation. -/
def rotr32 (x n : Nat) : Nat := w32 ((x >>> n) ||| (x <<< (32 - n)))

/-- SHA-256 round constants (FIPS 180-4, written in decimal). -/
def sha256K : List Nat :=
  [1116352408, 1899447441, 3049323471, 3921009573, 961987163,
   1508970993, 2453635748, 2870763221, 3624381080, 310598401,
   607225278, 1426881987, 1925078388, 2162078206, 2614888103,
   3248222580, 3835390401, 4022224774, 264347078, 604807628,
   770255983, 1249150122, 1555081692, 1996064986, 2554220882,
   2821834349, 2952996808, 3210313671, 3336571891, 3584528711,
   113926993, 338241895, 666307205, 773529912, 1294757372,
   1396182291, 1695183700, 1986661051, 2177026350, 2456956037,
   2730485921, 2820302411, 3259730800, 3345764771, 3516065817,
   3600352804, 4094571909, 275423344, 430227734, 506948616,
   659060556, 883997877, 958139571, 1322822218, 1537002063,
   1747873779, 1955562222, 2024104815, 2227730452, 2361852424,
   2428436474, 2756734187, 3204031479, 3329325298]

/-- Working state of the compression function: eight 32-bit words. -/
structure Hash8 where
  a : Nat
  b : Nat
  c : Nat
  d : Nat
  e : Nat
  f : Nat
  g : Nat
  h : Nat

/-- SHA-256 initial hash value (FIPS 180-4, written in decimal). -/
def sha256Init : Hash8 :=
  ⟨1779033703, 3144134277, 1013904242, 2773480762,
   1359893119, 2600822924, 528734635, 1541459225⟩

/-- Big-endian 4-byte serialization of a 32-bit word. -/
def wordBytes (w : Nat) : Bytes :=
  [w / 16777216 % 256, w / 65536 % 256, w / 256 % 256, w % 256]

/-- Big-endian 8-byte serialization of a 64-bit length. -/
def lenBytes64 (n : Nat) : Bytes :=
  [n / 72057594037927936 % 256, n / 281474976710656 % 256,
   n / 1099511627776 % 256, n / 4294967296 % 256, n / 16777216 % 256,
   n / 65536 % 256, n / 256 % 256, n % 256]

/-- SHA-256 message padding: append 0x80, zero bytes, and the bit length
so the total length is a multiple of 64 bytes. -/
def sha256Pad (msg : Bytes) : Bytes :=
  msg ++ [0x80] ++ List.replicate ((119 - msg.length % 64) % 64) 0 ++
    lenBytes64 (msg.length * 8)

/-- Split a byte string into 64-byte blocks. -/
def chunks64 (l : Bytes) : List Bytes :=
  if l = [] then []
  else l.take 64 :: chunks64 (l.drop 64)
  termination_by l.length
  decreasing_by
    rename_i hl
    have : l.length ≠ 0 := fun h0 => hl (List.eq_nil_of_length_eq_zero h0)
    simp only [List.length_drop]
    omega

/-- Big-endian word assembly of four consecutive bytes of a block. -/
def blockWord (block : Bytes) (i : Nat) : Nat :=
  block.getD (4 * i) 0 * 16777216 + block.getD (4 * i + 1) 0 * 65536 +
    block.getD (4 * i + 2) 0 * 256 + block.getD (4 * i + 3) 0

/-- Message schedule: the first 16 words come from the block, the
remaining 48 from the recurrence with the two sigma functions. -/
def sha256Schedule (block : Bytes) : List Nat :=
  let w0 := (List.range 16).map (blockWord block)
  (List.range 48).foldl
    (fun w i =>
      let s0 := w32 (rotr32 (w.getD (i + 1) 0) 7 ^^^
        rotr32 (w.getD (i + 1) 0) 18 ^^^ (w.getD (i + 1) 0 >>> 3))
      let s1 := w32 (rotr32 (w.getD (i + 14) 0) 17 ^^^
        rotr32 (w.getD (i + 14) 0) 19 ^^^ (w.getD (i + 14) 0 >>> 10))
      w ++ [w32 (w.getD i 0 + s0 + w.getD (i + 9) 0 + s1)])
    w0

/-- One round of the SHA-256 compression function. -/
def sha256Round (st : Hash8) (kw : Nat × Nat) : Hash8 :=
  let s1 := w32 (rotr32 st.e 6 ^^^ rotr32 st.e 11 ^^^ rotr32 st.e 25)
  let ch := w32 ((st.e &&& st.f) ^^^ ((st.e ^^^ 4294967295) &&& st.g))
  let t1 := w32 (st.h + s1 + ch + kw.1 + kw.2)
  let s0 := w32 (rotr32 st.a 2 ^^^ rotr32 st.a 13 ^^^ rotr32 st.a 22)
  let mj := w32 ((st.a &&& st.b) ^^^ (st.a &&& st.c) ^^^ (st.b &&& st.c))
  let t2 := w32 (s0 + mj)
  ⟨w32 (t1 + t2), st.a, st.b, st.c, w32 (st.d + t1), st.e, st.f, st.g⟩

/-- Process one 64-byte block. -/
def sha256Block (st : Hash8) (block : Bytes) : Hash8 :=
  let ws := sha256Schedule block
  let r := (sha256K.zip ws).foldl sha256Round st
  ⟨w32 (st.a + r.a), w32 (st.b + r.b), w32 (st.c + r.c), w32 (st.d + r.d),
   w32 (st.e + r.e), w32 (st.f + r.f), w32 (st.g + r.g), w32 (st.h + r.h)⟩

/-- SHA-256 digest of a byte string (src/src/utils/crypto.ts sha256; the
string argument there stands for its UTF-8 byte sequence). -/
def sha256 (msg : Bytes) : Bytes :=
  let st := (chunks64 (sha256Pad msg)).foldl sha256Block sha256Init
  wordBytes st.a ++ wordBytes st.b ++ wordBytes st.c ++ wordBytes st.d ++
    wordBytes st.e ++ wordBytes st.f ++ wordBytes st.g ++ wordBytes st.h

/-- The hashing algorithm shared by both suites (src/unnamed/part_007
hash): SHA-256 of the canonical proof configuration, then SHA-256 of the
transformed document, concatenated in that order. -/
def hash (transformedDocument canonicalProofConfig : Bytes) : Bytes :=
  let proofConfigHash := sha256 canonicalProofConfig
  let transformedDocumentHash := sha256 transformedDocument
  proofConfigHash ++ transformedDocumentHash

/-! ## Proof pipeline data model (src/src/suite, src/unnamed/part_007,
src/unnamed/part_008) -/

/-- A JSON-LD context value: a single context URL or an array of them. -/
inductive CtxVal where
  | one (s : String)
  | arr (l : List String)
  deriving DecidableEq, Repr

/-- The array coercion the JCS verify path applies to both contexts
before comparing them element-wise. -/
def CtxVal.asArray : CtxVal → List String
  | .one s => [s]
  | .arr l => l

/-- A proof / proof-options object (the wire-format fields of section 6
of the spec, with the at-context member written out). -/
structure Proof where
  type : String
  cryptosuite : String
  created : Option String := none
  verificationMethod : Option String := none
  proofPurpose : Option String := none
  context : Option CtxVal := none
  proofValue : Option (List Char) := none
  deriving DecidableEq, Repr

/-- A credential document: its at-context, its proof member, and an
opaque body standing for all remaining content. -/
structure Credential where
  context : Option CtxVal := none
  proof : Option Proof := none
  body : String := ""
  deriving DecidableEq, Repr

/-- Fixed proof type identifier (GENERAL_PROOF_TYPE). -/
def generalProofType : String := "DataIntegrityProof"

/-- Fixed RDFC cryptosuite identifier (SUITE_RDFC). -/
def suiteRDFC : String := "eddsa-rdfc-2022"

/-- Fixed JCS cryptosuite identifier (SUITE_JCS). -/
def suiteJCS : String := "eddsa-jcs-2022"

/-- A resolved verification-method keypair as produced by
Ed25519Keypair.import during serialize / verify. -/
structure ResolvedKeypair where
  publicKey : Option Bytes := none
  privateKey : Option Bytes := none
  deriving DecidableEq, Repr

/-- The opaque external collaborators (spec section 1): canonicalization
with its injected document loader, Date.parse, verification-method
resolution, and the platform Ed25519 primitives.  Canonical forms are
byte strings; a Date.parse result of none models NaN. -/
structure Env where
  rdfcCanonizeCred : Credential → Bytes
  rdfcCanonizeProof : Proof → Bytes
  jcsCanonizeCred : Credential → Bytes
  jcsCanonizeProof : Proof → Bytes
  dateParse : String → Option Int
  resolveKeypair : Option String → Except Err ResolvedKeypair
  ed25519Sign : Bytes → Bytes → Bytes
  ed25519Verify : Bytes → Bytes → Bytes → Bool

/-- JS truthiness of an optional string: undefined and the empty string
are falsy. -/
def jsTruthyStr : Option String → Bool
  | none => false
  | some s => s ≠ ""

/-- Truthiness of the JS negation !Date.parse(s): true when the parse
result is NaN or the number 0 (the Unix epoch). -/
def dateParseFalsy (env : Env) (s : String) : Bool :=
  match env.dateParse s with
  | none => true
  | some v => v = 0

/-- transformRDFC (src/unnamed/part_007): reject a foreign proof type or
cryptosuite, then canonicalize the unsecured document. -/
def transformRDFC (env : Env) (unsecuredDocument : Credential)
    (proof : Proof) : Except Err Bytes :=
  if proof.type ≠ generalProofType ∨ proof.cryptosuite ≠ suiteRDFC then
    .error (.proofTransformationError "suite/core#transformRDFC"
      "The proof type or cryptosuite is not supported.")
  else
    .ok (env.rdfcCanonizeCred unsecuredDocument)

/-- transformJCS (src/unnamed/part_007). -/
def transformJCS (env : Env) (unsecuredDocument : Credential)
    (proof : Proof) : Except Err Bytes :=
  if proof.type ≠ generalProofType ∨ proof.cryptosuite ≠ suiteJCS then
    .error (.proofTransformationError "suite/core#transformJCS"
      "The proof type or cryptosuite is not supported.")
  else
    .ok (env.jcsCanonizeCred unsecuredDocument)

/-- configRDFC (src/unnamed/part_007): clone the proof options, validate
type, cryptosuite and created, copy the document context onto the clone,
canonicalize the clone. -/
def configRDFC (env : Env) (unsecuredDocument : Credential)
    (proof : Proof) : Except Err Bytes :=
  let proofConfig := proof
  if proofConfig.type ≠ generalProofType ∨
      proofConfig.cryptosuite ≠ suiteRDFC then
    .error (.proofGenerationError "suite/core#configRDFC"
      "The proof type or cryptosuite is not supported.")
  else if jsTruthyStr proofConfig.created &&
      dateParseFalsy env (proofConfig.created.getD "") then
    .error (.proofGenerationError "suite/core#configRDFC"
      "The proof creation date is not a valid datetime.")
  else
    .ok (env.rdfcCanonizeProof
      { proofConfig with context := unsecuredDocument.context })

/-- configJCS (src/unnamed/part_007): like configRDFC but without the
context copy, canonicalized with JCS. -/
def configJCS (env : Env) (proof : Proof) : Except Err Bytes :=
  let proofConfig := proof
  if proofConfig.type ≠ generalProofType ∨
      proofConfig.cryptosuite ≠ suiteJCS then
    .error (.proofGenerationError "suite/core#configJCS"
      "The proof type or cryptosuite is not supported.")
  else if jsTruthyStr proofConfig.created &&
      dateParseFalsy env (proofConfig.created.getD "") then
    .error (.proofGenerationError "suite/core#configJCS"
      "The proof creation date is not a valid datetime.")
  else
    .ok (env.jcsCanonizeProof proofConfig)

/-- serialize (src/unnamed/part_007): resolve the verification method
and import it, require a private key, sign the hash data. -/
def serialize (env : Env) (hashData : Bytes) (proof : Proof) :
    Except Err Bytes :=
  match env.resolveKeypair proof.verificationMethod with
  | .error e => .error e
  | .ok kp =>
      match kp.privateKey with
      | none => .error (.invalidVerificationMethod "suite/core#serialize"
          "The specified verification method does not contain a private key.")
      | some sk => .ok (env.ed25519Sign sk hashData)

/-- verify (src/unnamed/part_007): resolve the verification method
and import it, require a public key, check the signature. -/
def coreVerify (env : Env) (hashData proofBytes : Bytes) (proof : Proof) :
    Except Err Bool :=
  match env.resolveKeypair proof.verificationMethod with
  | .error e => .error e
  | .ok kp =>
      match kp.publicKey with
      | none => .error (.invalidVerificationMethod "suite/core#verify"
          "The specified verification method does not contain a public key.")
      | some pk => .ok (env.ed25519Verify pk proofBytes hashData)

/-- base58btc.encode (src/src/utils/encode.ts and the identical
framework helper used by the suites). -/
def base58btcEncode (data : Bytes) : List Char := 'z' :: b58encode data

/-- base58btc.decode (src/src/utils/encode.ts): throws on a missing
marker or an invalid base58 character. -/
def base58btcDecode (s : List Char) : Except Err Bytes :=
  if s.head? ≠ some 'z' then
    .error (.decodingError "encode/base58::decode"
      "Invalid base-58-btc prefix!")
  else
    match b58decode (s.drop 1) with
    | none => .error (.decodingError "encode/base58::decode"
        "invalid character")
    | some b => .ok b

/-- Verification result shape returned by verifyProof. -/
structure Verification where
  verified : Bool
  verifiedDocument : Option Credential := none
  errors : List Err := []
  deriving DecidableEq, Repr

/-- EddsaRdfc2022.createProof (src/src/suite/rdfc.ts): clone the proof
options, run configure, transform, hash and serialize, then write the
encoded signature into the clone. -/
def createProofRdfc (env : Env) (unsecuredDocument : Credential)
    (proof : Proof) : Except Err Proof :=
  let cloneProof := proof
  (configRDFC env unsecuredDocument proof).bind fun canonicalProofConfig =>
  (transformRDFC env unsecuredDocument proof).bind fun canonicalDocument =>
  (serialize env (hash canonicalDocument canonicalProofConfig) proof).bind
    fun proofBytes =>
  .ok { cloneProof with proofValue := some (base58btcEncode proofBytes) }

/-- EddsaRdfc2022.verifyProof (src/src/suite/rdfc.ts): strip proof and
proofValue, decode the signature, re-run transform, configure and hash,
check the signature, and attach the unsecured document when verified.
The non-null assertion on a missing proof or proofValue is a JS
TypeError inside the decode call. -/
def verifyProofRdfc (env : Env) (securedDocument : Credential) :
    Except Err Verification :=
  match securedDocument.proof with
  | none => .error (.typeError "EddsaRdfc2022.verifyProof"
      "Cannot read properties of undefined")
  | some pr =>
      let unsecuredCredential := { securedDocument with proof := none }
      let proofOptions := { pr with proofValue := none }
      match base58btcDecode (pr.proofValue.getD []) with
      | .error e => .error e
      | .ok proofBytes =>
          (transformRDFC env unsecuredCredential proofOptions).bind
            fun canonicalDocument =>
          (configRDFC env unsecuredCredential proofOptions).bind
            fun canonicalProofConfig =>
          (coreVerify env (hash canonicalDocument canonicalProofConfig)
              proofBytes proofOptions).bind fun verified =>
          .ok { verified := verified,
                verifiedDocument :=
                  if verified then some unsecuredCredential else none }

/-- The JCS verify-path context guard (step 4 of
EddsaJcs2022.verifyProof): array-coerced element-wise comparison of the
secured context against the proof context. -/
def ctxMismatch (proofContext securedContext : List String) : Bool :=
  securedContext.length < proofContext.length ||
    (List.range proofContext.length).any
      (fun i => proofContext.getD i "" ≠ securedContext.getD i "")

/-- EddsaJcs2022.verifyProof (src/unnamed/part_008): decode the
signature, run the context guard (early structured failure on a
mismatch), override the unsecured document context with the proof
context, then transform, configure, hash and check the signature. -/
def verifyProofJcs (env : Env) (securedDocument : Credential) :
    Except Err Verification :=
  match securedDocument.proof with
  | none => .error (.typeError "EddsaJcs2022.verifyProof"
      "Cannot read properties of undefined")
  | some pr =>
      let unsecuredCredential := { securedDocument with proof := none }
      let proofOptions := { pr with proofValue := none }
      match base58btcDecode (pr.proofValue.getD []) with
      | .error e => .error e
      | .ok proofBytes =>
          let step4 : Except Verification Credential :=
            match proofOptions.context with
            | none => .ok unsecuredCredential
            | some pctx =>
                match securedDocument.context with
                | none => .error { verified := false, errors :=
                    [.proofVerificationError "EddsaJcs2022::verifyProof"
                      "The secured document does not contain a context."] }
                | some sctx =>
                    if ctxMismatch pctx.asArray sctx.asArray then
                      .error { verified := false, errors :=
                        [.proofVerificationError "EddsaJcs2022::verifyProof"
                          "The secured document context does not match the proof context."] }
                    else
                      .ok { unsecuredCredential with
                        context := some (.arr pctx.asArray) }
          match step4 with
          | .error v => .ok v
          | .ok unsecured =>
              (transformJCS env unsecured proofOptions).bind
                fun canonicalDocument =>
              (configJCS env proofOptions).bind fun canonicalProofConfig =>
              (coreVerify env (hash canonicalDocument canonicalProofConfig)
                  proofBytes proofOptions).bind fun verified =>
              .ok { verified := verified,
                    verifiedDocument :=
                      if verified then some unsecured else none }

/-- Signature-level verification result (src/src/suite/core.ts). -/
structure VerificationResult where
  verified : Bool
  errors : Option Err := none
  deriving DecidableEq, Repr

/-- verify (src/src/suite/core.ts): the try/catch recovers the missing
public key, the malformed multibase marker and an invalid base58
character into a structured verified-false result; nothing escapes. -/
def suiteCoreVerify (verifyFn : Bytes → Bytes → Bytes → Bool) (data : Bytes)
    (signature : List Char) (publicKey : Option Bytes) : VerificationResult :=
  match publicKey with
  | none =>
      { verified := false, errors := some (.keyNotFound "suite/core.verify"
          "The keypair does not have a public key.") }
  | some pk =>
      if signature.head? ≠ some 'z' then
        { verified := false, errors := some (.formatError "suite/core.verify"
            "The signature is not in the correct format.") }
      else
        match b58decode (signature.drop 1) with
        | none =>
            { verified := false, errors := some (.decodingError
                "decodeBase58" "invalid character") }
        | some sigBytes => { verified := verifyFn pk sigBytes data }

/-! ## Seeded raw keypair generation (src/src/key/core.ts) -/

/-- A raw keypair: 32-byte public key, seed-plus-public private key. -/
structure RawKeypair where
  publicKey : Bytes
  privateKey : Bytes
  deriving DecidableEq, Repr

/-- The node crypto primitives behind generateRawKeypair: derivation of
the Ed25519 public key from a 32-byte seed (createPrivateKey followed by
createPublicKey and an spki export prepends the DER public prefix to the
derived raw key), and the randomBytes entropy source. -/
structure KeyGenEnv where
  pubFromSeed : Bytes → Bytes
  randomBytes : Nat → Bytes

/-- _seedDerEncode (src/src/key/core.ts): reject any seed that is not 32
bytes, else prepend the PKCS8 prefix. -/
def seedDerEncode (seed : Bytes) : Except Err Bytes :=
  if seed.length ≠ 32 then
    .error (.formatError "_seedDerEncode" "Invalid seed length!")
  else
    .ok (derPrivPfx ++ seed)

/-- _getKeyMaterial (src/src/key/core.ts): strip whichever DER prefix
the buffer starts with (indexOf(p) equal to 0 is a starts-with test). -/
def coreGetKeyMaterial (keyBuffer : Bytes) : Except Err Bytes :=
  if keyBuffer.take 12 = derPubPfx then .ok (keyBuffer.drop 12)
  else if keyBuffer.take 16 = derPrivPfx then .ok (keyBuffer.drop 16)
  else .error (.formatError "_getKeyMaterial"
    "Expected the buffer to be a ED25519 public or private key!")

/-- generateRawKeypair (src/src/key/core.ts): default the seed from
randomBytes, DER-encode it into a private key, derive the public key
from that private key, export and strip it, return the pair with the
private half being seed-plus-public-bytes (Buffer.concat). -/
def generateRawKeypair (env : KeyGenEnv) (seed : Option Bytes) :
    Except Err RawKeypair :=
  let seed := match seed with
    | none => env.randomBytes 32
    | some s => s
  match seedDerEncode seed with
  | .error e => .error e
  | .ok der =>
      let publicKeyBuffer := derPubPfx ++ env.pubFromSeed (der.drop 16)
      match coreGetKeyMaterial publicKeyBuffer with
      | .error e => .error e
      | .ok publicKeyBytes =>
          .ok { publicKey := publicKeyBytes,
                privateKey := seed ++ publicKeyBytes }

/-! ## Keypair entity export (src/src/key/keypair.ts, part_001) -/

/-- A verification-method document as produced by export; the key
material fields are filled in by the serializers. -/
structure VerificationMethod where
  id : Option String := none
  type : Option String := none
  controller : Option String := none
  revoked : Option String := none
  publicKeyMultibase : Option (List Char) := none
  secretKeyMultibase : Option (List Char) := none
  publicKeyJwk : Option String := none
  secretKeyJwk : Option String := none
  deriving DecidableEq, Repr

/-- The keypair entity state. -/
structure Ed25519Keypair where
  id : Option String := none
  controller : Option String := none
  revoked : Option String := none
  publicKey : Option Bytes := none
  privateKey : Option Bytes := none
  deriving DecidableEq, Repr

/-- The platform-backed serializers export dispatches to (toJwk and
toMultibase wrap Web Crypto exportKey). -/
structure KeypairEnv where
  toJwk : Ed25519Keypair → String → VerificationMethod
  toMultibase : Ed25519Keypair → String → VerificationMethod

/-- Export options; flag and type are the JS string unions, kept
optional because export itself fills in a missing flag. -/
structure ExportOptions where
  flag : Option String := none
  type : Option String := none
  deriving DecidableEq, Repr

/-- Ed25519Keypair.export (src/src/key/keypair.ts): the first statement
writes flag equal to public into the caller's options object when the
flag is missing; then the lifecycle checks run and the call dispatches
on type.  The returned pair carries the result and the post-call state
of the caller's options object. -/
def Ed25519Keypair.export (env : KeypairEnv) (kp : Ed25519Keypair)
    (options : ExportOptions) :
    Except Err VerificationMethod × ExportOptions :=
  let options :=
    if jsTruthyStr options.flag then options
    else { options with flag := some "public" }
  let res : Except Err VerificationMethod :=
    if (options.flag = some "private" ∧ kp.privateKey = none) ∨
        (options.flag = some "public" ∧ kp.publicKey = none) then
      .error (.logicError "Ed25519Keypair.export"
        "This keypair has not been initialized!")
    else if kp.id = none ∨ kp.controller = none then
      .error (.logicError "Ed25519Keypair.export"
        "Required fields are missing!")
    else if options.type = some "jwk" then
      .ok (env.toJwk kp (options.flag.getD ""))
    else if options.type = some "multibase" then
      .ok (env.toMultibase kp (options.flag.getD ""))
    else
      .error (.logicError "Ed25519Keypair.export" "Unsupported export type!")
  (res, options)

/-! ## Reference-cell heap model (for the mutation claims)

createProof and verifyProof receive JS objects by reference; a heap of
cells makes object identity and in-place writes explicit, so that the
no-mutation claim about the caller's document and proof options is a
real frame property: structuredClone allocates a fresh cell and every
write in the pipeline targets a cell, caller-owned or fresh. -/

/-- Heap objects: the two object shapes the pipeline touches. -/
inductive Obj where
  | cred (c : Credential)
  | prf (p : Proof)
  deriving DecidableEq, Repr

/-- A heap of JS objects. -/
structure Store where
  cells : List Obj
  deriving DecidableEq, Repr

/-- Dereference. -/
def Store.read (st : Store) (r : Nat) : Option Obj := st.cells.get? r

/-- Allocation at a fresh reference (structuredClone). -/
def Store.alloc (st : Store) (o : Obj) : Store × Nat :=
  ({ cells := st.cells ++ [o] }, st.cells.length)

/-- In-place write through a reference. -/
def Store.write (st : Store) (r : Nat) (o : Obj) : Store :=
  { cells := st.cells.set r o }

/-- configRDFC on the heap: structuredClone the proof cell, run the
validation, write the copied context into the clone cell, canonicalize
the clone.  Mirrors configRDFC above with the clone made explicit. -/
def configRDFCS (env : Env) (st : Store) (doc : Credential) (pr : Proof) :
    Except Err (Store × Bytes) :=
  let (st1, cfgRef) := st.alloc (.prf pr)
  if pr.type ≠ generalProofType ∨ pr.cryptosuite ≠ suiteRDFC then
    .error (.proofGenerationError "suite/core#configRDFC"
      "The proof type or cryptosuite is not supported.")
  else if jsTruthyStr pr.created &&
      dateParseFalsy env (pr.created.getD "") then
    .error (.proofGenerationError "suite/core#configRDFC"
      "The proof creation date is not a valid datetime.")
  else
    let st2 := st1.write cfgRef (.prf { pr with context := doc.context })
    match st2.read cfgRef with
    | some (.prf cfg) => .ok (st2, env.rdfcCanonizeProof cfg)
    | _ => .error (.typeError "suite/core#configRDFC" "dangling reference")

/-- EddsaRdfc2022.createProof on the heap: the caller passes references
to its document and its proof options; every mutation in the pipeline
goes through the heap. -/
def createProofRdfcS (env : Env) (st : Store) (docRef proofRef : Nat) :
    Except Err (Store × Proof) :=
  match st.read docRef, st.read proofRef with
  | some (.cred doc), some (.prf pr) =>
      let (st1, cloneRef) := st.alloc (.prf pr)
      match configRDFCS env st1 doc pr with
      | .error e => .error e
      | .ok (st2, canonicalProofConfig) =>
          match transformRDFC env doc pr with
          | .error e => .error e
          | .ok canonicalDocument =>
              match serialize env
                  (hash canonicalDocument canonicalProofConfig) pr with
              | .error e => .error e
              | .ok proofBytes =>
                  match st2.read cloneRef with
                  | some (.prf clone) =>
                      let st3 := st2.write cloneRef (.prf { clone with
                        proofValue := some (base58btcEncode proofBytes) })
                      match st3.read cloneRef with
                      | some (.prf result) => .ok (st3, result)
                      | _ => .error (.typeError
                          "EddsaRdfc2022.createProof" "dangling reference")
                  | _ => .error (.typeError "EddsaRdfc2022.createProof"
                      "dangling reference")
  | _, _ => .error (.typeError "EddsaRdfc2022.createProof"
      "dangling reference")

/-- EddsaRdfc2022.verifyProof on the heap: clone the secured document
and delete its proof in place, clone the proof and delete its proofValue
in place, then run the pure verification tail. -/
def verifyProofRdfcS (env : Env) (st : Store) (docRef : Nat) :
    Except Err (Store × Verification) :=
  match st.read docRef with
  | some (.cred securedCredential) =>
      match securedCredential.proof with
      | none => .error (.typeError "EddsaRdfc2022.verifyProof"
          "Cannot read properties of undefined")
      | some pr =>
          let (st1, unsecRef) := st.alloc (.cred securedCredential)
          let st2 := st1.write unsecRef
            (.cred { securedCredential with proof := none })
          let (st3, optRef) := st2.alloc (.prf pr)
          let st4 := st3.write optRef (.prf { pr with proofValue := none })
          match base58btcDecode (pr.proofValue.getD []) with
          | .error e => .error e
          | .ok proofBytes =>
              match st4.read unsecRef, st4.read optRef with
              | some (.cred unsecuredCredential), some (.prf proofOptions) =>
                  (transformRDFC env unsecuredCredential proofOptions).bind
                    fun canonicalDocument =>
                  (configRDFC env unsecuredCredential proofOptions).bind
                    fun canonicalProofConfig =>
                  (coreVerify env
                      (hash canonicalDocument canonicalProofConfig)
                      proofBytes proofOptions).bind fun verified =>
                  .ok (st4, { verified := verified,
                              verifiedDocument :=
                                if verified then some unsecuredCredential
                                else none })
              | _, _ => .error (.typeError "EddsaRdfc2022.verifyProof"
                  "dangling reference")
  | _ => .error (.typeError "EddsaRdfc2022.verifyProof"
      "dangling reference")

/-! ## Concrete instances used by counterexamples and witnesses -/

/-- A concrete environment: canonicalization returns the empty byte
string, verification-method resolution yields empty raw keys, signing
returns the empty signature and signature verification accepts.  Its
dateParse records the JS Date.parse facts this development relies on:
the Unix epoch timestamp parses to the number 0 (which is falsy), any
other string used here parses to a positive number. -/
def envAccept : Env :=
  { rdfcCanonizeCred := fun _ => []
    rdfcCanonizeProof := fun _ => []
    jcsCanonizeCred := fun _ => []
    jcsCanonizeProof := fun _ => []
    dateParse := fun s => if s = "1970-01-01T00:00:00Z" then some 0 else some 1
    resolveKeypair := fun _ => .ok { publicKey := some [], privateKey := some [] }
    ed25519Sign := fun _ _ => []
    ed25519Verify := fun _ _ _ => true }

/-- 32 bytes of raw key material. -/
def keyMaterial32 : Bytes := List.replicate 32 7

/-- A well-formed RDFC proof-options object. -/
def prGood : Proof :=
  { type := generalProofType, cryptosuite := suiteRDFC
    created := some "2024-01-01T00:00:00Z"
    verificationMethod := some "did:example:1#key-1"
    proofPurpose := some "assertionMethod" }

/-- An unsecured document. -/
def docGood : Credential :=
  { context := some (.one "https://www.w3.org/ns/credentials/v2")
    body := "vc" }

/-- prGood carrying a well-formed multibase proofValue. -/
def prGoodPV : Proof := { prGood with proofValue := some ['z', '1'] }

/-- A secured document whose proof has a well-formed proofValue. -/
def docSecured : Credential := { docGood with proof := some prGoodPV }

/-- prGoodPV with the first character of its proofValue flipped from the
multibase marker z to 0. -/
def prBadPV : Proof := { prGood with proofValue := some ['0', '1'] }

/-- docSecured with the one-character-flipped proofValue. -/
def docSecuredBadPV : Credential := { docGood with proof := some prBadPV }

/-- A JCS proof options object carrying an explicit context that is a
strict prefix of the secured document context. -/
def prJcsCtx : Proof :=
  { type := generalProofType, cryptosuite := suiteJCS
    verificationMethod := some "did:example:1#key-1"
    proofPurpose := some "assertionMethod"
    context := some (.arr ["https://ctx/a"])
    proofValue := some ['z', '1'] }

/-- A secured JCS document whose context array strictly extends the
proof context array. -/
def docJcsCtx : Credential :=
  { context := some (.arr ["https://ctx/a", "https://ctx/b"])
    proof := some prJcsCtx
    body := "vc" }

/-- An RDFC proof whose created field is the Unix epoch: a perfectly
valid W3C dateTime that JS Date.parse evaluates to the falsy number 0. -/
def prEpochRdfc : Proof :=
  { type := generalProofType, cryptosuite := suiteRDFC
    created := some "1970-01-01T00:00:00Z" }

/-- The JCS twin of prEpochRdfc. -/
def prEpochJcs : Proof :=
  { type := generalProofType, cryptosuite := suiteJCS
    created := some "1970-01-01T00:00:00Z" }

/-- A two-cell heap holding the caller's document and proof options. -/
def storeInit : Store := { cells := [.cred docGood, .prf prGood] }

/-- The proof object createProof returns on storeInit under envAccept:
the clone carrying the encoded empty signature. -/
def prAfterCreate : Proof := { prGood with proofValue := some ['z'] }

/-- The heap after createProof on storeInit under envAccept: the two
caller cells untouched, the structuredClone cell carrying the signed
clone, and the configure-stage clone carrying the copied context. -/
def storeAfterCreate : Store :=
  { cells := [.cred docGood, .prf prGood, .prf prAfterCreate,
      .prf { prGood with context := docGood.context }] }

/-- A sample initialized keypair entity. -/
def kpSample : Ed25519Keypair :=
  { id := some "did:example:1#key-1", controller := some "did:example:1"
    publicKey := some keyMaterial32, privateKey := some keyMaterial32 }

/-- Constant keypair serializers. -/
def kpEnvSample : KeypairEnv :=
  { toJwk := fun _ _ => {}, toMultibase := fun _ _ => {} }

/-- A sample key-generation environment: derivation is a constant list,
entropy is all zeros. -/
def keyGenEnvSample : KeyGenEnv :=
  { pubFromSeed := fun _ => List.replicate 32 5
    randomBytes := fun n => List.replicate n 0 }

/-! ## base58 round-trip -/

lemma natDigitsF_eq_digits (b : Nat) (hb : 2 ≤ b) :
    ∀ fuel n, n ≤ fuel → natDigitsF b fuel n = Nat.digits b n
  | fuel, 0, _ => by cases fuel <;> simp [natDigitsF]
  | 0, _ + 1, h => by omega
  | fuel + 1, n + 1, h => by
      rw [natDigitsF]
      have hdiv : (n + 1) / b ≤ fuel := by
        have hlt : (n + 1) / b < n + 1 := Nat.div_lt_self (Nat.succ_pos n) hb
        omega
      rw [natDigitsF_eq_digits b hb fuel ((n + 1) / b) hdiv]
      rw [← Nat.digits_def' hb (Nat.succ_pos n)]

lemma natDigits58 (n : Nat) : natDigits 58 n = Nat.digits 58 n :=
  natDigitsF_eq_digits 58 (by norm_num) n n le_rfl

lemma natDigits256 (n : Nat) : natDigits 256 n = Nat.digits 256 n :=
  natDigitsF_eq_digits 256 (by norm_num) n n le_rfl

lemma charDigit_digitChar {d : Nat} (h : d < 58) :
    charDigit (digitChar d) = some d := by
  interval_cases d <;> decide

lemma charDigit_one : charDigit '1' = some 0 := by decide

lemma replicate_leadCount_append_drop {α : Type} [DecidableEq α] (x : α) :
    ∀ l : List α,
      List.replicate (leadCount x l) x ++ l.drop (leadCount x l) = l
  | [] => rfl
  | y :: t => by
      by_cases hy : y = x
      · subst hy
        simp only [leadCount, if_pos rfl, List.replicate_succ, List.cons_append,
          List.drop_succ_cons]
        exact congrArg (y :: ·) (replicate_leadCount_append_drop y t)
      · simp [leadCount, hy]

lemma head_drop_leadCount_ne {α : Type} [DecidableEq α] (x : α) :
    ∀ (l : List α) {a : α} {t : List α},
      l.drop (leadCount x l) = a :: t → a ≠ x
  | [], a, t => by simp [leadCount]
  | y :: l, a, t => by
      by_cases hy : y = x
      · subst hy
        simp only [leadCount, if_pos rfl, List.drop_succ_cons]
        exact head_drop_leadCount_ne y l
      · simp only [leadCount, if_neg hy, List.drop_zero, List.cons.injEq]
        rintro ⟨rfl, rfl⟩
        exact hy

lemma leadCount_replicate_append {α : Type} [DecidableEq α] (x : α)
    (t : List α) (ht : ∀ a tt, t = a :: tt → a ≠ x) :
    ∀ z : Nat, leadCount x (List.replicate z x ++ t) = z
  | 0 => by
      cases t with
      | nil => rfl
      | cons a tt => simp [leadCount, ht a tt rfl]
  | z + 1 => by
      simp only [List.replicate_succ, List.cons_append, leadCount, if_pos rfl]
      exact congrArg (· + 1) (leadCount_replicate_append x t ht z)

lemma charDigits_append {s t : List Char} {ds dt : List Nat}
    (hs : charDigits s = some ds) (ht : charDigits t = some dt) :
    charDigits (s ++ t) = some (ds ++ dt) := by
  induction s generalizing ds with
  | nil =>
      simp only [charDigits] at hs
      cases hs
      simpa using ht
  | cons c s ih =>
      cases hc : charDigit c with
      | none => simp [charDigits, hc] at hs
      | some d =>
          cases hcs : charDigits s with
          | none => simp [charDigits, hc, hcs] at hs
          | some ds' =>
              have hds : ds = d :: ds' := by
                simp only [charDigits, hc, hcs, Option.bind_eq_bind,
                  Option.some_bind, Option.pure_def, Option.some.injEq] at hs
                exact hs.symm
              subst hds
              simp only [List.cons_append, charDigits, hc, List.append_eq,
                ih hcs, Option.bind_eq_bind, Option.some_bind,
                Option.pure_def]

lemma charDigits_replicate_one :
    ∀ z : Nat, charDigits (List.replicate z '1') = some (List.replicate z 0)
  | 0 => rfl
  | z + 1 => by
      simp only [List.replicate_succ, charDigits, charDigit_one,
        charDigits_replicate_one z, Option.bind_eq_bind, Option.some_bind,
        Option.pure_def]

lemma charDigits_map_digitChar {ds : List Nat} (h : ∀ d ∈ ds, d < 58) :
    charDigits (ds.map digitChar) = some ds := by
  induction ds with
  | nil => rfl
  | cons d ds ih =>
      simp only [List.map_cons, charDigits, Option.bind_eq_bind,
        charDigit_digitChar (h d (List.mem_cons_self d ds)), Option.some_bind,
        ih (fun x hx => h x (List.mem_cons_of_mem d hx)), Option.pure_def]

lemma ofDigits_replicate_zero (b : Nat) :
    ∀ z : Nat, Nat.ofDigits b (List.replicate z 0) = 0
  | 0 => rfl
  | z + 1 => by
      simp [List.replicate_succ, Nat.ofDigits_cons, ofDigits_replicate_zero b z]

lemma reverse_cons_getLast {α : Type} {l : List α} {a : α} {t : List α}
    (hat : l.reverse = a :: t) :
    ∃ (hne : l ≠ []), l.getLast hne = a := by
  have hne : l ≠ [] := by
    intro h0
    rw [h0] at hat
    simp at hat
  refine ⟨hne, ?_⟩
  have hp : l.reverse ≠ [] := by simp [hat]
  have h1 : l.reverse.head hp = l.getLast hne := List.head_reverse hp
  rw [← h1]
  simp [hat]

lemma b58_roundtrip_aux (z : Nat) (rest : Bytes)
    (hhead : ∀ a t, rest = a :: t → a ≠ 0)
    (hlt : ∀ b ∈ rest, b < 256) :
    b58decode (b58encode (List.replicate z 0 ++ rest))
      = some (List.replicate z 0 ++ rest) := by
  have hlc : leadCount 0 (List.replicate z 0 ++ rest) = z :=
    leadCount_replicate_append 0 rest hhead z
  have hrestlt : ∀ b ∈ rest.reverse, b < 256 := fun b hb =>
    hlt b (List.mem_reverse.mp hb)
  have hrestlast : ∀ (hne : rest.reverse ≠ []),
      rest.reverse.getLast hne ≠ 0 := by
    intro hne
    have hrne : rest ≠ [] := fun hr => hne (by simp [hr])
    obtain ⟨a, t, hat⟩ := List.exists_cons_of_ne_nil hrne
    subst hat
    rw [List.getLast_reverse]
    simpa using hhead a t rfl
  have hofrev : Nat.ofDigits 256 (List.replicate z 0 ++ rest).reverse
      = Nat.ofDigits 256 rest.reverse := by
    rw [List.reverse_append, List.reverse_replicate, Nat.ofDigits_append,
      ofDigits_replicate_zero, Nat.mul_zero, Nat.add_zero]
  have hdig256 : Nat.digits 256 (Nat.ofDigits 256 rest.reverse)
      = rest.reverse :=
    Nat.digits_ofDigits 256 (by norm_num) rest.reverse hrestlt hrestlast
  set n : Nat := Nat.ofDigits 256 rest.reverse with hn
  have hdig58lt : ∀ d ∈ (Nat.digits 58 n).reverse, d < 58 := fun d hd =>
    Nat.digits_lt_base (by norm_num) (List.mem_reverse.mp hd)
  have hcd : charDigits (b58encode (List.replicate z 0 ++ rest)) =
      some (List.replicate z 0 ++ (Nat.digits 58 n).reverse) := by
    unfold b58encode
    rw [natDigits58, hlc, hofrev]
    exact charDigits_append (charDigits_replicate_one z)
      (charDigits_map_digitChar hdig58lt)
  have hheaddig : ∀ a t, (Nat.digits 58 n).reverse = a :: t → a ≠ 0 := by
    intro a t hat
    have hn0 : n ≠ 0 := by
      intro h0
      rw [h0] at hat
      simp at hat
    obtain ⟨hne, hga⟩ := reverse_cons_getLast hat
    rw [← hga]
    exact Nat.getLast_digit_ne_zero 58 hn0
  have hlead : leadCount 0 (List.replicate z 0 ++ (Nat.digits 58 n).reverse)
      = z := leadCount_replicate_append 0 _ hheaddig z
  have hval : Nat.ofDigits 58
      ((List.replicate z 0 ++ (Nat.digits 58 n).reverse).reverse) = n := by
    rw [List.reverse_append, List.reverse_reverse, List.reverse_replicate,
      Nat.ofDigits_append, ofDigits_replicate_zero, Nat.mul_zero,
      Nat.add_zero, Nat.ofDigits_digits]
  simp only [b58decode, Option.bind_eq_bind, hcd, Option.some_bind,
    Option.pure_def, natDigits256, hlead, hval, hdig256,
    List.reverse_reverse]

/-- Round trip of the embedded base58 codec: decoding an encoded byte
string recovers it exactly (leading zero bytes included). -/
theorem b58decode_b58encode (l : Bytes) (h : ∀ b ∈ l, b < 256) :
    b58decode (b58encode l) = some l := by
  have hsplit : List.replicate (leadCount 0 l) 0 ++ l.drop (leadCount 0 l)
      = l := replicate_leadCount_append_drop 0 l
  have hres := b58_roundtrip_aux (leadCount 0 l) (l.drop (leadCount 0 l))
    (fun a t hat => head_drop_leadCount_ne 0 l hat)
    (fun b hb => h b (List.mem_of_mem_drop hb))
  rw [hsplit] at hres
  exact hres

/-! ## Codec lemmas -/

lemma leadEq_append_self (p t : Bytes) : leadEq p (p ++ t) = true := by
  induction p with
  | nil => rfl
  | cons x xs ih => simp [leadEq, ih]

lemma leadEq_self (p : Bytes) : leadEq p p = true := by
  have := leadEq_append_self p []
  simpa using this

lemma leadEq_set_right (p : Bytes) :
    ∀ (i b : Nat) (t : Bytes), i < p.length → b ≠ p.getD i 0 →
      leadEq p (p.set i b ++ t) = false := by
  induction p with
  | nil => intro i b t hi; simp at hi
  | cons x xs ih =>
      intro i b t hi hb
      cases i with
      | zero =>
          simp only [List.getD_cons_zero] at hb
          simp [List.set, leadEq, Ne.symm hb]
      | succ i =>
          simp only [List.getD_cons_succ] at hb
          simp only [List.length_cons, Nat.add_lt_add_iff_right] at hi
          simp [List.set, leadEq, ih i b t hi hb]

lemma leadEq_set_left (p : Bytes) :
    ∀ (i b : Nat), i < p.length → b ≠ p.getD i 0 →
      leadEq (p.set i b) p = false := by
  induction p with
  | nil => intro i b hi; simp at hi
  | cons x xs ih =>
      intro i b hi hb
      cases i with
      | zero =>
          simp only [List.getD_cons_zero] at hb
          simp [List.set, leadEq, hb]
      | succ i =>
          simp only [List.getD_cons_succ] at hb
          simp only [List.length_cons, Nat.add_lt_add_iff_right] at hi
          simp [List.set, leadEq, ih i b hi hb]

/-- Round trip of the multibase codec on the byte level: decoding an
encoding recovers the full prefixed material. -/
theorem decodeMultibase_encodeMultibase (m p : Bytes)
    (hm : ∀ b ∈ m, b < 256) (hp : ∀ b ∈ p, b < 256) :
    decodeMultibase (encodeMultibase m p) (some p) = .ok (p ++ m) := by
  have hall : ∀ b ∈ p ++ m, b < 256 := by
    intro b hb
    rcases List.mem_append.mp hb with h | h
    · exact hp b h
    · exact hm b h
  simp only [decodeMultibase, encodeMultibase, List.head?_cons,
    ne_eq, not_true_eq_false, if_false, List.drop_one, List.tail_cons,
    b58decode_b58encode (p ++ m) hall, leadEq_append_self, if_true]

/-- Single-byte mutation of the expected multicodec prefix of an encoded
key: decodeMultibase rejects it with FormatError at every position. -/
theorem decodeMultibase_rejects_mutated
    (m p : Bytes) (i b : Nat) (hm : ∀ x ∈ m, x < 256)
    (hp : ∀ x ∈ p, x < 256) (hi : i < p.length) (hb256 : b < 256)
    (hb : b ≠ p.getD i 0) :
    decodeMultibase (encodeMultibase m (p.set i b)) (some p) =
      .error (.formatError "decodeMultibase" "Invalid key prefix!") := by
  have hall : ∀ x ∈ p.set i b ++ m, x < 256 := by
    intro x hx
    rcases List.mem_append.mp hx with h | h
    · rcases List.mem_or_eq_of_mem_set h with h1 | h1
      · exact hp x h1
      · exact h1 ▸ hb256
    · exact hm x h
  simp only [decodeMultibase, encodeMultibase, List.head?_cons,
    ne_eq, not_true_eq_false, if_false, List.drop_one, List.tail_cons,
    b58decode_b58encode (p.set i b ++ m) hall,
    leadEq_set_right p i b m hi hb, Bool.false_eq_true, if_false]

lemma derPrivPfx_length : derPrivPfx.length = 16 := rfl

lemma derPubPfx_length : derPubPfx.length = 12 := rfl

/-- Round trip of the DER key-material codec: stripping the prefix from
a DER encoding recovers the material. -/
theorem getKeyMaterial_derFromMaterial (m : Bytes) (f : KeyFlag) :
    getKeyMaterial (derFromMaterial m f) f = .ok m := by
  cases f with
  | priv =>
      simp only [getKeyMaterial, derFromMaterial, derPfx,
        List.take_left' derPrivPfx_length, leadEq_self, if_true,
        List.drop_left' derPrivPfx_length]
  | pub =>
      simp only [getKeyMaterial, derFromMaterial, derPfx,
        List.take_left' derPubPfx_length, leadEq_self, if_true,
        List.drop_left' derPubPfx_length]

/-- Single-byte mutation of the DER prefix: getKeyMaterial rejects it
with FormatError at every position. -/
theorem getKeyMaterial_rejects_mutated (m : Bytes) (f : KeyFlag)
    (i b : Nat) (hi : i < (derPfx f).length) (hb : b ≠ (derPfx f).getD i 0) :
    ∃ msg, getKeyMaterial ((derPfx f).set i b ++ m) f =
      .error (.formatError "getKeyMaterial" msg) := by
  cases f with
  | priv =>
      have hlen : ((derPrivPfx).set i b).length = 16 := by
        simp [List.length_set, derPrivPfx_length]
      refine ⟨"Expected the buffer to be a ED25519 private key!", ?_⟩
      simp only [getKeyMaterial, derPfx] at *
      rw [List.take_left' hlen, leadEq_set_left derPrivPfx i b hi hb]
      simp
  | pub =>
      have hlen : ((derPubPfx).set i b).length = 12 := by
        simp [List.length_set, derPubPfx_length]
      refine ⟨"Expected the buffer to be a ED25519 public key!", ?_⟩
      simp only [getKeyMaterial, derPfx] at *
      rw [List.take_left' hlen, leadEq_set_left derPubPfx i b hi hb]
      simp

/-! ## Heap lemmas -/

lemma Store.read_lt_length {st : Store} {r : Nat} {o : Obj}
    (h : st.read r = some o) : r < st.cells.length := by
  by_contra hge
  rw [Store.read, List.get?_eq_none.mpr (Nat.le_of_not_lt hge)] at h
  exact Option.noConfusion h

lemma Store.read_write_self (st : Store) {r : Nat} (o : Obj)
    (h : r < st.cells.length) : (st.write r o).read r = some o := by
  simp only [Store.write, Store.read]
  exact List.get?_set_eq_of_lt o h

/-- Frame fact for the create-proof heap evolution: two allocations
followed by writes at the two fresh cells leave every caller cell
untouched. -/
lemma read_frame_create (cells : List Obj) (a b c e : Obj) (r : Nat)
    (hr : r < cells.length) :
    ((((cells ++ [a]) ++ [b]).set (cells.length + 1) c).set
      cells.length e).get? r = cells.get? r := by
  rw [List.get?_set_ne e _ (by omega), List.get?_set_ne c _ (by omega),
    List.get?_append (show r < (cells ++ [a]).length by
      simp only [List.length_append, List.length_cons]; omega),
    List.get?_append hr]

/-- Frame fact for the verify-proof heap evolution: alloc, write at the
fresh cell, alloc, write at the second fresh cell. -/
lemma read_frame_verify (cells : List Obj) (a b c e : Obj) (r : Nat)
    (hr : r < cells.length) :
    ((((cells ++ [a]).set cells.length b) ++ [c]).set
      (cells.length + 1) e).get? r = cells.get? r := by
  rw [List.get?_set_ne e _ (by omega),
    List.get?_append (show r < ((cells ++ [a]).set cells.length b).length by
      simp only [List.length_set, List.length_append, List.length_cons]
      omega),
    List.get?_set_ne b _ (by omega), List.get?_append hr]

/-! ## Except reduction lemmas -/

@[simp] lemma except_ok_bind {e a b : Type} (x : a) (f : a → Except e b) :
    (Except.ok (ε := e) x).bind f = f x := rfl

@[simp] lemma except_error_bind {e a b : Type} (err : e)
    (f : a → Except e b) :
    (Except.error (α := a) err).bind f = Except.error err := rfl

/-! ## Hash length -/

lemma wordBytes_length (w : Nat) : (wordBytes w).length = 4 := rfl

lemma sha256_length (m : Bytes) : (sha256 m).length = 32 := by
  unfold sha256
  simp [wordBytes_length]

/-! ## Claim theorems -/

/-- C2: for every pair of canonical inputs, the hashing algorithm
returns SHA-256 of the canonical proof configuration concatenated with
SHA-256 of the transformed document, proof-config hash first, each
component exactly 32 bytes and the result exactly 64 bytes. -/
theorem C2_hash_sha256_order (transformedDocument canonicalProofConfig :
    Bytes) :
    hash transformedDocument canonicalProofConfig =
      sha256 canonicalProofConfig ++ sha256 transformedDocument ∧
    (sha256 canonicalProofConfig).length = 32 ∧
    (sha256 transformedDocument).length = 32 ∧
    (hash transformedDocument canonicalProofConfig).length = 64 := by
  refine ⟨rfl, sha256_length _, sha256_length _, ?_⟩
  simp [hash, sha256_length]

/-- C5: contrary to the claim (and to the procedure documented in the
source itself), the configure stage also raises ProofGenerationError on
a proof whose created field is the valid Unix-epoch timestamp, because
the source tests the parse result with a JS truthiness negation and
Date.parse of the epoch is the falsy number 0.  The environment records
that Date.parse fact. -/
theorem C5_epoch_created_rejected :
    configRDFC envAccept docGood prEpochRdfc =
      .error (.proofGenerationError "suite/core#configRDFC"
        "The proof creation date is not a valid datetime.") ∧
    configJCS envAccept prEpochJcs =
      .error (.proofGenerationError "suite/core#configJCS"
        "The proof creation date is not a valid datetime.") := by
  constructor <;> decide

/-- C7 counterexample: multibase decoding the multibase encoding of raw
key material m under the public multicodec prefix returns the prefixed
material, not m, so the claimed equation decode(encode(m)) equal to m
fails at this concrete 32-byte input. -/
theorem C7_counterexample_decode_prefixed :
    decodeMultibase (encodeMultibase keyMaterial32 multicodecPubPfx)
      (some multicodecPubPfx) = .ok (multicodecPubPfx ++ keyMaterial32) ∧
    multicodecPubPfx ++ keyMaterial32 ≠ keyMaterial32 := by
  constructor
  · exact decodeMultibase_encodeMultibase keyMaterial32 multicodecPubPfx
      (by decide) (by decide)
  · decide

/-- C7 (amended): for all valid 32-byte key material and both flags,
stripping the DER prefix from the DER encoding recovers the material,
and multibase-decoding the multibase encoding under the multicodec
prefix returns the prefixed material whose suffix is the material
(prefix-plus-material, not the bare material). -/
theorem C7_codec_roundtrips (m : Bytes) (f : KeyFlag)
    (hlen : m.length = 32) (hm : ∀ b ∈ m, b < 256) :
    getKeyMaterial (derFromMaterial m f) f = .ok m ∧
    decodeMultibase (encodeMultibase m (multicodecPfx f))
      (some (multicodecPfx f)) = .ok (multicodecPfx f ++ m) := by
  refine ⟨getKeyMaterial_derFromMaterial m f, ?_⟩
  apply decodeMultibase_encodeMultibase m _ hm
  cases f <;> decide

/-- Witness for C7_codec_roundtrips at concrete 32-byte material. -/
theorem C7_codec_roundtrips_witness :
    keyMaterial32.length = 32 ∧ (∀ b ∈ keyMaterial32, b < 256) ∧
    (getKeyMaterial (derFromMaterial keyMaterial32 .pub) .pub =
        .ok keyMaterial32 ∧
      decodeMultibase (encodeMultibase keyMaterial32 (multicodecPfx .pub))
        (some (multicodecPfx .pub)) =
          .ok (multicodecPfx .pub ++ keyMaterial32)) :=
  ⟨by decide, by decide,
    C7_codec_roundtrips keyMaterial32 .pub (by decide) (by decide)⟩

/-- C8: seeded generation accepts exactly a 32-byte seed, failing with
FormatError ("Invalid seed length") otherwise, and derives the public
key from the private key built from the seed, independently of the
entropy source, so the same seed always yields the same keypair. -/
theorem C8_seeded_generation (env : KeyGenEnv) (seed : Bytes) :
    (seed.length ≠ 32 →
      generateRawKeypair env (some seed) =
        .error (.formatError "_seedDerEncode" "Invalid seed length!")) ∧
    (seed.length = 32 →
      generateRawKeypair env (some seed) =
        .ok { publicKey := env.pubFromSeed seed,
              privateKey := seed ++ env.pubFromSeed seed }) ∧
    (∀ env' : KeyGenEnv, env'.pubFromSeed = env.pubFromSeed →
      generateRawKeypair env' (some seed) =
        generateRawKeypair env (some seed)) := by
  refine ⟨?_, ?_, ?_⟩
  · intro h
    simp [generateRawKeypair, seedDerEncode, h]
  · intro h
    simp only [generateRawKeypair, seedDerEncode, h, ne_eq,
      not_true_eq_false, if_false, ite_false, if_neg]
    rw [List.drop_left' derPrivPfx_length]
    simp [coreGetKeyMaterial, List.take_left' derPubPfx_length,
      List.drop_left' derPubPfx_length]
  · intro env' h
    simp only [generateRawKeypair, seedDerEncode, h]

/-- Witness for C8_seeded_generation at a concrete 32-byte seed. -/
theorem C8_seeded_generation_witness :
    (keyMaterial32.length = 32 →
      generateRawKeypair keyGenEnvSample (some keyMaterial32) =
        .ok { publicKey := keyGenEnvSample.pubFromSeed keyMaterial32,
              privateKey := keyMaterial32 ++
                keyGenEnvSample.pubFromSeed keyMaterial32 }) ∧
    keyMaterial32.length = 32 :=
  ⟨(C8_seeded_generation keyGenEnvSample keyMaterial32).2.1, by decide⟩

/-- C10: Ed25519Keypair.export writes flag equal to public into the
caller-supplied options object when the flag was missing, so the
caller's options object is changed by the call. -/
theorem C10_export_mutates_options (env : KeypairEnv)
    (kp : Ed25519Keypair) (options : ExportOptions)
    (h : options.flag = none) :
    (Ed25519Keypair.export env kp options).2.flag = some "public" ∧
    (Ed25519Keypair.export env kp options).2 ≠ options := by
  constructor
  · simp [Ed25519Keypair.export, jsTruthyStr, h]
  · intro heq
    have hfl : (Ed25519Keypair.export env kp options).2.flag =
        options.flag := by rw [heq]
    simp [Ed25519Keypair.export, jsTruthyStr, h] at hfl

/-- C1: the claim fails on the keypair constructor's multibase prefix
check.  At the same single-byte-mutated encoded key, decodeMultibase and
getKeyMaterial fail with FormatError as the claim states (their loops
cover every byte position; the general statements are
decodeMultibase_rejects_mutated and getKeyMaterial_rejects_mutated),
but isValidKeyPrefix accepts the mutated prefix and returns true,
because its forEach callback's return-false is discarded by forEach. -/
theorem C1_mutated_prefix_handling :
    decodeMultibase (encodeMultibaseKey (multicodecPubPfx.set 0 0xec)
        keyMaterial32) (some multicodecPubPfx) =
      .error (.formatError "decodeMultibase" "Invalid key prefix!") ∧
    getKeyMaterial (derPubPfx.set 3 0x06 ++ keyMaterial32) .pub =
      .error (.formatError "getKeyMaterial"
        "Expected the buffer to be a ED25519 public key!") ∧
    isValidKeyPrefix multicodecPubPfx
      (some (encodeMultibaseKey (multicodecPubPfx.set 0 0xec)
        keyMaterial32)) = .ok true := by
  refine ⟨by decide, by decide, by decide⟩

/-- C3 counterexample: the secured document with a well-formed
proofValue verifies to a structured result, but flipping its first
character (the multibase marker z became 0) makes verifyProof throw the
decoding error instead of returning a verified-false result, for any
environment; the claim that every one-character flip yields
verified-false without raising is false. -/
theorem C3_counterexample_flip_raises :
    verifyProofRdfc envAccept docSecured =
      .ok { verified := true, verifiedDocument := some docGood } ∧
    verifyProofRdfc envAccept docSecuredBadPV =
      .error (.decodingError "encode/base58::decode"
        "Invalid base-58-btc prefix!") := by
  constructor <;> decide

/-- C3 (amended): when the flipped proofValue still decodes as a
multibase base58 string, verifyProof completes without raising and
returns the structured result whose verified field is the Ed25519
verdict (false for a tampered signature); and the signature-level
verify of suite/core.ts recovers the absent public key and the
malformed signature encoding into structured verified-false results.
Failures of the decode step itself, however, propagate as exceptions
(see the counterexample). -/
theorem C3_structured_failure_recovery :
    (∀ (env : Env) (d : Credential) (pr : Proof) (pv : List Char)
        (bytes : Bytes) (kp : ResolvedKeypair) (pk : Bytes),
      d.proof = some pr → pr.proofValue = some pv →
      base58btcDecode pv = .ok bytes →
      pr.type = generalProofType → pr.cryptosuite = suiteRDFC →
      (jsTruthyStr pr.created &&
        dateParseFalsy env (pr.created.getD "")) = false →
      env.resolveKeypair pr.verificationMethod = .ok kp →
      kp.publicKey = some pk →
      ∃ v : Bool,
        verifyProofRdfc env d =
          .ok { verified := v,
                verifiedDocument :=
                  if v then some { d with proof := none } else none } ∧
        v = env.ed25519Verify pk bytes
          (hash (env.rdfcCanonizeCred { d with proof := none })
            (env.rdfcCanonizeProof
              { pr with proofValue := none, context := d.context }))) ∧
    (∀ (vf : Bytes → Bytes → Bytes → Bool) (data : Bytes)
        (sig : List Char),
      suiteCoreVerify vf data sig none =
        { verified := false,
          errors := some (.keyNotFound "suite/core.verify"
            "The keypair does not have a public key.") }) ∧
    (∀ (vf : Bytes → Bytes → Bytes → Bool) (data : Bytes)
        (sig : List Char) (pk : Bytes), sig.head? ≠ some 'z' →
      suiteCoreVerify vf data sig (some pk) =
        { verified := false,
          errors := some (.formatError "suite/core.verify"
            "The signature is not in the correct format.") }) := by
  refine ⟨?_, ?_, ?_⟩
  · intro env d pr pv bytes kp pk hpr hpv hdec htype hcs hcreated hres hpk
    obtain ⟨ptype, pcs, pcreated, pvm, ppp, pctx, ppv⟩ := pr
    obtain ⟨dctx, dproof, dbody⟩ := d
    obtain ⟨kpub, kpriv⟩ := kp
    simp only at hpr hpv htype hcs hcreated hres hpk ⊢
    subst hpr hpv htype hcs hpk
    refine ⟨_, ?_, rfl⟩
    simp only [verifyProofRdfc, Option.getD_some, hdec, transformRDFC,
      configRDFC, coreVerify, hres, hcreated, ne_eq, not_true_eq_false,
      false_or, or_self, if_false, Bool.false_eq_true, except_ok_bind]
  · intro vf data sig
    rfl
  · intro vf data sig pk h
    simp [suiteCoreVerify, h]

/-- Witness for C3_structured_failure_recovery at concrete inputs. -/
theorem C3_structured_failure_recovery_witness :
    base58btcDecode ['z', '1'] = .ok [0] ∧
    (∃ v : Bool,
      verifyProofRdfc envAccept docSecured =
        .ok { verified := v,
              verifiedDocument :=
                if v then some { docSecured with proof := none }
                else none } ∧
      v = envAccept.ed25519Verify [] [0]
        (hash (envAccept.rdfcCanonizeCred { docSecured with proof := none })
          (envAccept.rdfcCanonizeProof
            { prGoodPV with proofValue := none
                            context := docSecured.context }))) :=
  ⟨by decide,
    C3_structured_failure_recovery.1 envAccept docSecured prGoodPV
      ['z', '1'] [0] { publicKey := some [], privateKey := some [] } []
      rfl rfl (by decide) rfl rfl (by decide) rfl rfl⟩

/-- Witness for C4 / C6: the ctxMismatch guard of the source is exactly
the negation of the list-prefix relation of the claim. -/
lemma ctxMismatch_nil (sc : List String) : ctxMismatch [] sc = false := by
  simp [ctxMismatch]

lemma ctxMismatch_cons_nil (x : String) (xs : List String) :
    ctxMismatch (x :: xs) [] = true := by
  simp [ctxMismatch]

lemma ctxMismatch_cons_cons (x y : String) (xs ys : List String) :
    ctxMismatch (x :: xs) (y :: ys) =
      (decide (¬ x = y) || ctxMismatch xs ys) := by
  simp only [ctxMismatch, List.length_cons, List.range_succ_eq_map,
    List.any_cons, List.any_map, Function.comp_def, List.getD_cons_zero,
    List.getD_cons_succ, Nat.add_lt_add_iff_right, ne_eq]
  cases h1 : decide (¬ x = y) <;>
    cases h2 : decide (ys.length < xs.length) <;>
      simp [h1, h2, Bool.or_comm, Bool.or_assoc, Bool.or_left_comm]

lemma ctxMismatch_eq_false_iff :
    ∀ pc sc : List String, ctxMismatch pc sc = false ↔ pc <+: sc
  | [], sc => by simp [ctxMismatch_nil]
  | x :: xs, [] => by simp [ctxMismatch_cons_nil, List.prefix_nil]
  | x :: xs, y :: ys => by
      rw [ctxMismatch_cons_cons]
      simp only [Bool.or_eq_false_iff, decide_eq_false_iff_not, not_not,
        ctxMismatch_eq_false_iff xs ys, List.cons_prefix_cons]

/-- C4: on the JCS verify path, with the proof options carrying an
explicit context array, a secured document whose context is absent or is
an array that does not extend the proof context element-wise in order
yields a verified-false result carrying ProofVerificationError without
reaching the signature check (for every environment); otherwise the
verification proceeds to recompute the hash and check the signature. -/
theorem C4_jcs_context_guard (env : Env) (d : Credential) (pr : Proof)
    (pv : List Char) (bytes : Bytes) (pc : List String)
    (hpr : d.proof = some pr) (hpv : pr.proofValue = some pv)
    (hdec : base58btcDecode pv = .ok bytes)
    (hctx : pr.context = some (.arr pc)) :
    (d.context = none →
      verifyProofJcs env d =
        .ok { verified := false, errors :=
          [.proofVerificationError "EddsaJcs2022::verifyProof"
            "The secured document does not contain a context."] }) ∧
    (∀ sc, d.context = some (.arr sc) → ¬ pc <+: sc →
      verifyProofJcs env d =
        .ok { verified := false, errors :=
          [.proofVerificationError "EddsaJcs2022::verifyProof"
            "The secured document context does not match the proof context."] }) ∧
    (∀ sc, d.context = some (.arr sc) → pc <+: sc →
      verifyProofJcs env d =
        ((transformJCS env
            { d with proof := none, context := some (.arr pc) }
            { pr with proofValue := none }).bind fun canonicalDocument =>
        (configJCS env { pr with proofValue := none }).bind
          fun canonicalProofConfig =>
        (coreVerify env (hash canonicalDocument canonicalProofConfig)
            bytes { pr with proofValue := none }).bind fun verified =>
        .ok { verified := verified,
              verifiedDocument :=
                if verified then
                  some { d with proof := none, context := some (.arr pc) }
                else none })) := by
  obtain ⟨ptype, pcs, pcreated, pvm, ppp, pctx, ppv⟩ := pr
  obtain ⟨dctx, dproof, dbody⟩ := d
  simp only at hpr hpv hctx ⊢
  subst hpr hpv hctx
  refine ⟨?_, ?_, ?_⟩
  · intro hd
    subst hd
    simp only [verifyProofJcs, Option.getD_some, hdec]
  · intro sc hd hpre
    subst hd
    have hmm : ctxMismatch pc sc = true := by
      cases hval : ctxMismatch pc sc with
      | false => exact absurd ((ctxMismatch_eq_false_iff pc sc).mp hval) hpre
      | true => rfl
    simp only [verifyProofJcs, Option.getD_some, hdec, CtxVal.asArray,
      hmm, if_true]
  · intro sc hd hpre
    subst hd
    have hmm : ctxMismatch pc sc = false :=
      (ctxMismatch_eq_false_iff pc sc).mpr hpre
    simp only [verifyProofJcs, Option.getD_some, hdec, CtxVal.asArray,
      hmm, Bool.false_eq_true, if_false]

/-- Witness for C4_jcs_context_guard at a concrete matched context. -/
theorem C4_jcs_context_guard_witness :
    docJcsCtx.proof = some prJcsCtx ∧
    base58btcDecode ['z', '1'] = .ok [0] ∧
    ["https://ctx/a"] <+: ["https://ctx/a", "https://ctx/b"] ∧
    verifyProofJcs envAccept docJcsCtx =
      ((transformJCS envAccept
          { docJcsCtx with proof := none
                           context := some (.arr ["https://ctx/a"]) }
          { prJcsCtx with proofValue := none }).bind
            fun canonicalDocument =>
      (configJCS envAccept { prJcsCtx with proofValue := none }).bind
        fun canonicalProofConfig =>
      (coreVerify envAccept (hash canonicalDocument canonicalProofConfig)
          [0] { prJcsCtx with proofValue := none }).bind fun verified =>
      .ok { verified := verified,
            verifiedDocument :=
              if verified then
                some { docJcsCtx with
                        proof := none
                        context := some (.arr ["https://ctx/a"]) }
              else none }) :=
  ⟨rfl, by decide, by decide,
    (C4_jcs_context_guard envAccept docJcsCtx prJcsCtx ['z', '1'] [0]
      ["https://ctx/a"] rfl rfl (by decide) rfl).2.2
      ["https://ctx/a", "https://ctx/b"] rfl (by decide)⟩

/-- C6 counterexample: on the JCS path with an explicit proof context,
a secured document verifies (verified true) yet the returned
verifiedDocument is not the secured document with the proof property
removed — its context has been replaced by the proof context array. -/
theorem C6_counterexample_ctx_override :
    verifyProofJcs envAccept docJcsCtx =
      .ok { verified := true,
            verifiedDocument := some { docJcsCtx with
              proof := none
              context := some (.arr ["https://ctx/a"]) } } ∧
    ({ docJcsCtx with proof := none
                      context := some (.arr ["https://ctx/a"]) } :
        Credential) ≠ { docJcsCtx with proof := none } := by
  constructor <;> decide

/-- C6 (amended): whenever verifyProof returns a result,
verifiedDocument is present exactly when verified is true; on the RDFC
path it then equals the secured document with the proof property
removed, while on the JCS path its context is additionally replaced by
the proof options' context array whenever the proof options carry one. -/
theorem C6_verified_document_shape :
    (∀ (env : Env) (d : Credential) (r : Verification),
      verifyProofRdfc env d = .ok r →
      r.verifiedDocument =
        if r.verified then some { d with proof := none } else none) ∧
    (∀ (env : Env) (d : Credential) (pr : Proof) (r : Verification),
      d.proof = some pr →
      verifyProofJcs env d = .ok r →
      r.verifiedDocument =
        if r.verified then
          some (match pr.context with
            | none => { d with proof := none }
            | some pctx => { d with
                proof := none
                context := some (.arr pctx.asArray) })
        else none) := by
  constructor
  · intro env d r h
    rw [verifyProofRdfc] at h
    cases hpr : d.proof with
    | none => rw [hpr] at h; exact absurd h (by simp)
    | some pr =>
        rw [hpr] at h
        dsimp only at h
        cases hdec : base58btcDecode (pr.proofValue.getD []) with
        | error e => rw [hdec] at h; exact absurd h (by simp)
        | ok bytes =>
            rw [hdec] at h
            dsimp only at h
            cases htr : transformRDFC env { d with proof := none }
                { pr with proofValue := none } with
            | error e => rw [htr] at h; exact absurd h (by simp)
            | ok cdoc =>
                rw [htr] at h
                dsimp only [except_ok_bind] at h
                cases hcf : configRDFC env { d with proof := none }
                    { pr with proofValue := none } with
                | error e =>
                    rw [hcf] at h
                    exact absurd h (by simp)
                | ok ccfg =>
                    rw [hcf] at h
                    dsimp only [except_ok_bind] at h
                    cases hvf : coreVerify env (hash cdoc ccfg) bytes
                        { pr with proofValue := none } with
                    | error e =>
                        rw [hvf] at h
                        exact absurd h (by simp)
                    | ok v =>
                        rw [hvf] at h
                        simp only [except_ok_bind, Except.ok.injEq] at h
                        subst h
                        rfl
  · intro env d pr r hpr h
    obtain ⟨ptype, pcs, pcreated, pvm, ppp, pctx0, ppv⟩ := pr
    obtain ⟨dctx, dproof, dbody⟩ := d
    simp only at hpr ⊢
    subst hpr
    rw [verifyProofJcs] at h
    dsimp only at h
    cases hdec : base58btcDecode (ppv.getD []) with
    | error e => rw [hdec] at h; exact absurd h (by simp)
    | ok bytes =>
        rw [hdec] at h
        dsimp only at h
        cases pctx0 with
        | none =>
            dsimp only at h
            cases htr : transformJCS env ⟨dctx, none, dbody⟩
                ⟨ptype, pcs, pcreated, pvm, ppp, none, none⟩ with
            | error e => rw [htr] at h; exact absurd h (by simp)
            | ok cdoc =>
                rw [htr] at h
                dsimp only [except_ok_bind] at h
                cases hcf : configJCS env
                    ⟨ptype, pcs, pcreated, pvm, ppp, none, none⟩ with
                | error e => rw [hcf] at h; exact absurd h (by simp)
                | ok ccfg =>
                    rw [hcf] at h
                    dsimp only [except_ok_bind] at h
                    cases hvf : coreVerify env (hash cdoc ccfg) bytes
                        ⟨ptype, pcs, pcreated, pvm, ppp, none, none⟩ with
                    | error e => rw [hvf] at h; exact absurd h (by simp)
                    | ok v =>
                        rw [hvf] at h
                        simp only [except_ok_bind, Except.ok.injEq] at h
                        subst h
                        rfl
        | some pctx =>
            dsimp only at h
            cases dctx with
            | none =>
                dsimp only at h
                simp only [Except.ok.injEq] at h
                subst h
                rfl
            | some sctx =>
                dsimp only at h
                by_cases hmm : ctxMismatch pctx.asArray sctx.asArray = true
                · rw [if_pos hmm] at h
                  dsimp only at h
                  simp only [Except.ok.injEq] at h
                  subst h
                  rfl
                · rw [if_neg hmm] at h
                  dsimp only at h
                  cases htr : transformJCS env
                      ⟨some (.arr pctx.asArray), none, dbody⟩
                      ⟨ptype, pcs, pcreated, pvm, ppp, some pctx, none⟩ with
                  | error e => rw [htr] at h; exact absurd h (by simp)
                  | ok cdoc =>
                      rw [htr] at h
                      dsimp only [except_ok_bind] at h
                      cases hcf : configJCS env
                          ⟨ptype, pcs, pcreated, pvm, ppp, some pctx,
                            none⟩ with
                      | error e => rw [hcf] at h; exact absurd h (by simp)
                      | ok ccfg =>
                          rw [hcf] at h
                          dsimp only [except_ok_bind] at h
                          cases hvf : coreVerify env (hash cdoc ccfg) bytes
                              ⟨ptype, pcs, pcreated, pvm, ppp, some pctx,
                                none⟩ with
                          | error e =>
                              rw [hvf] at h
                              exact absurd h (by simp)
                          | ok v =>
                              rw [hvf] at h
                              simp only [except_ok_bind,
                                Except.ok.injEq] at h
                              subst h
                              rfl

/-- Witness for C6_verified_document_shape at concrete inputs. -/
theorem C6_verified_document_shape_witness :
    verifyProofRdfc envAccept docSecured =
      .ok { verified := true, verifiedDocument := some docGood } ∧
    ({ verified := true, verifiedDocument := some docGood } :
        Verification).verifiedDocument =
      (if ({ verified := true, verifiedDocument := some docGood } :
          Verification).verified then
        some { docSecured with proof := none }
      else none) :=
  ⟨by decide,
    C6_verified_document_shape.1 envAccept docSecured
      { verified := true, verifiedDocument := some docGood } (by decide)⟩

/-- Inversion of the heap-level configure stage: on success the store
has gained one fresh cell holding the context-updated clone, written in
place at the fresh reference. -/
lemma configRDFCS_ok_inv {env : Env} {st : Store} {doc : Credential}
    {pr : Proof} {st2 : Store} {cfg : Bytes}
    (h : configRDFCS env st doc pr = .ok (st2, cfg)) :
    st2 = { cells := (st.cells ++ [Obj.prf pr]).set st.cells.length
                       (Obj.prf { pr with context := doc.context }) } := by
  rw [configRDFCS] at h
  dsimp only [Store.alloc] at h
  split at h
  · exact absurd h (by simp)
  · split at h
    · exact absurd h (by simp)
    · rw [Store.read_write_self _ _ (by
        simp only [List.length_append, List.length_cons]
        omega)] at h
      dsimp only [Store.write] at h
      simp only [Except.ok.injEq, Prod.mk.injEq] at h
      exact h.1.symm

/-- C9: createProof and verifyProof leave the caller's document and
proof-options objects unmodified: on the heap model, every completed
invocation returns a store whose caller cells are unchanged — all
writes land in the structuredClone cells. -/
theorem C9_pipeline_preserves_caller_objects (env : Env) (st : Store)
    (docRef proofRef : Nat) :
    (∀ st' p, createProofRdfcS env st docRef proofRef = .ok (st', p) →
      ∀ r o, st.read r = some o → st'.read r = some o) ∧
    (∀ st' res, verifyProofRdfcS env st docRef = .ok (st', res) →
      ∀ r o, st.read r = some o → st'.read r = some o) := by
  constructor
  · intro st' p h
    rw [createProofRdfcS] at h
    cases hdoc : st.read docRef with
    | none => rw [hdoc] at h; exact absurd h (by simp)
    | some odoc =>
        rw [hdoc] at h
        cases odoc with
        | prf _ => exact absurd h (by simp)
        | cred doc =>
            cases hprr : st.read proofRef with
            | none => rw [hprr] at h; exact absurd h (by simp)
            | some oprf =>
                rw [hprr] at h
                cases oprf with
                | cred _ => exact absurd h (by simp)
                | prf pr =>
                    have hdlt := Store.read_lt_length hdoc
                    have hplt := Store.read_lt_length hprr
                    dsimp only [Store.alloc] at h
                    cases hcfg : configRDFCS env
                        { cells := st.cells ++ [Obj.prf pr] } doc pr with
                    | error e => rw [hcfg] at h; exact absurd h (by simp)
                    | ok pair =>
                        obtain ⟨st2, cfg⟩ := pair
                        rw [hcfg] at h
                        dsimp only at h
                        have hst2 := configRDFCS_ok_inv hcfg
                        dsimp only at hst2
                        cases htr : transformRDFC env doc pr with
                        | error e =>
                            rw [htr] at h
                            exact absurd h (by simp)
                        | ok cdoc =>
                            rw [htr] at h
                            dsimp only at h
                            cases hser : serialize env (hash cdoc cfg)
                                pr with
                            | error e =>
                                rw [hser] at h
                                exact absurd h (by simp)
                            | ok bytes =>
                                rw [hser] at h
                                dsimp only at h
                                have hread : st2.read st.cells.length =
                                    some (Obj.prf pr) := by
                                  rw [hst2]
                                  simp only [Store.read,
                                    List.length_append, List.length_cons]
                                  rw [List.get?_set_ne _ _ (by omega),
                                    List.get?_append (by
                                      simp only [List.length_append,
                                        List.length_cons]
                                      omega),
                                    List.get?_concat_length]
                                rw [hread] at h
                                dsimp only [Store.write] at h
                                split at h
                                rotate_left
                                · exact absurd h (by simp)
                                simp only [Except.ok.injEq,
                                  Prod.mk.injEq] at h
                                obtain ⟨hst', hp⟩ := h
                                subst hst'
                                intro r o hro
                                have hrlt := Store.read_lt_length hro
                                rw [hst2]
                                simp only [Store.write, Store.read,
                                  List.length_append, List.length_cons,
                                  List.length_nil, Nat.zero_add]
                                rw [read_frame_create st.cells _ _ _ _
                                  r hrlt]
                                exact hro
  · intro st' res h
    rw [verifyProofRdfcS] at h
    cases hdoc : st.read docRef with
    | none => rw [hdoc] at h; exact absurd h (by simp)
    | some odoc =>
        rw [hdoc] at h
        cases odoc with
        | prf _ => exact absurd h (by simp)
        | cred sec =>
            have hdlt := Store.read_lt_length hdoc
            dsimp only at h
            cases hsp : sec.proof with
            | none =>
                rw [hsp] at h
                exact absurd h (by simp)
            | some pr =>
                rw [hsp] at h
                dsimp only [Store.alloc, Store.write] at h
                simp only [List.length_set, List.length_append,
                  List.length_cons, List.length_nil, Nat.zero_add] at h
                cases hdec : base58btcDecode (pr.proofValue.getD []) with
                | error e => rw [hdec] at h; exact absurd h (by simp)
                | ok bytes =>
                    rw [hdec] at h
                    dsimp only at h
                    have hru : (((((st.cells ++ [Obj.cred sec]).set
                        st.cells.length
                        (Obj.cred { sec with proof := none })) ++
                        [Obj.prf pr]).set (st.cells.length + 1)
                        (Obj.prf { pr with proofValue := none })).get?
                          st.cells.length) =
                        some (Obj.cred { sec with proof := none }) := by
                      rw [List.get?_set_ne _ _ (by omega),
                        List.get?_append (by
                          simp only [List.length_set, List.length_append,
                            List.length_cons]
                          omega),
                        List.get?_set_eq_of_lt _ (by
                          simp only [List.length_append, List.length_cons]
                          omega)]
                    have hro : (((((st.cells ++ [Obj.cred sec]).set
                        st.cells.length
                        (Obj.cred { sec with proof := none })) ++
                        [Obj.prf pr]).set (st.cells.length + 1)
                        (Obj.prf { pr with proofValue := none })).get?
                          (st.cells.length + 1)) =
                        some (Obj.prf { pr with proofValue := none }) := by
                      rw [List.get?_set_eq_of_lt _ (by
                        simp only [List.length_append, List.length_set,
                          List.length_cons]
                        omega)]
                    simp only [Store.read] at h
                    rw [hru, hro] at h
                    dsimp only at h
                    cases htr : transformRDFC env { sec with proof := none }
                        { pr with proofValue := none } with
                    | error e => rw [htr] at h; exact absurd h (by simp)
                    | ok cdoc =>
                        rw [htr] at h
                        dsimp only [except_ok_bind] at h
                        cases hcf : configRDFC env
                            { sec with proof := none }
                            { pr with proofValue := none } with
                        | error e =>
                            rw [hcf] at h
                            exact absurd h (by simp)
                        | ok ccfg =>
                            rw [hcf] at h
                            dsimp only [except_ok_bind] at h
                            cases hvf : coreVerify env (hash cdoc ccfg)
                                bytes { pr with proofValue := none } with
                            | error e =>
                                rw [hvf] at h
                                exact absurd h (by simp)
                            | ok v =>
                                rw [hvf] at h
                                simp only [except_ok_bind,
                                  Except.ok.injEq, Prod.mk.injEq] at h
                                obtain ⟨hst', hres⟩ := h
                                subst hst'
                                intro r o hro
                                have hrlt := Store.read_lt_length hro
                                simp only [Store.read]
                                rw [read_frame_verify st.cells _ _ _ _
                                  r hrlt]
                                exact hro

/-- Witness for C9_pipeline_preserves_caller_objects at a concrete
heap: the caller's document cell is unchanged by createProof. -/
theorem C9_pipeline_preserves_caller_objects_witness :
    createProofRdfcS envAccept storeInit 0 1 =
      .ok (storeAfterCreate, prAfterCreate) ∧
    storeInit.read 0 = some (.cred docGood) ∧
    storeAfterCreate.read 0 = some (.cred docGood) :=
  ⟨by decide, by decide,
    (C9_pipeline_preserves_caller_objects envAccept storeInit 0 1).1
      storeAfterCreate prAfterCreate (by decide) 0 (.cred docGood)
      (by decide)⟩

/-- Witness for C10_export_mutates_options at concrete inputs. -/
theorem C10_export_mutates_options_witness :
    ({ flag := none, type := some "multibase" } : ExportOptions).flag
        = none ∧
    ((Ed25519Keypair.export kpEnvSample kpSample
        { flag := none, type := some "multibase" }).2.flag
          = some "public" ∧
      (Ed25519Keypair.export kpEnvSample kpSample
        { flag := none, type := some "multibase" }).2 ≠
          { flag := none, type := some "multibase" }) :=
  ⟨rfl, C10_export_mutates_options kpEnvSample kpSample
    { flag := none, type := some "multibase" } rfl⟩

end VCSuiteEddsa
